import Mathlib

set_option maxHeartbeats 2000000

/-!
Shallow embedding of the zeromail Gmail IMAP cleaner.

Python strings are modelled as `List Char`; the IMAP server visible to the
search/delete engine is modelled by the set of selectable mailboxes, the
result of the cutoff-date search in each mailbox, and the replies to the
STORE and EXPUNGE commands.  Each engine run, besides its return value,
produces the trace of IMAP commands it issued, so that temporal statements
("never issues a STORE while the virtual All Mail folder is selected") can
be expressed.
-/

namespace ZeroMail

/-! ### String helpers (Python str semantics on `List Char`) -/

/-- The whitespace class of Python's `\s` / `str.strip` (ASCII part). -/
def pyIsSpace (c : Char) : Bool :=
  c = ' ' || c = '\t' || c = '\n' || c = '\r' || c = '\x0b' || c = '\x0c'

/-- `s.lower()` (ASCII case folding, as used on the ASCII patterns below). -/
def lowers (s : List Char) : List Char := s.map Char.toLower

/-- Case-insensitive test that the lowercase pattern `p` begins the text `s`
(`s.lower().startswith(p)`). -/
def lowerStarts : List Char → List Char → Bool
  | [], _ => true
  | _ :: _, [] => false
  | pc :: ps, c :: cs => (c.toLower = pc) && lowerStarts ps cs

/-- Case-insensitive substring test (`p in s.lower()` for lowercase `p`). -/
def lowerSubstr (p : List Char) : List Char → Bool
  | [] => lowerStarts p []
  | c :: rest => lowerStarts p (c :: rest) || lowerSubstr p rest

/-- `s.strip()`. -/
def pyStrip (s : List Char) : List Char :=
  ((s.dropWhile pyIsSpace).reverse.dropWhile pyIsSpace).reverse

/-- `s.split(sep, 1)` when `sep` occurs in `s`: the parts before and after
the first occurrence of `sep`. -/
def pySplitOnce (sep : Char) : List Char → List Char × List Char
  | [] => ([], [])
  | c :: rest =>
    if c = sep then ([], rest)
    else
      let p := pySplitOnce sep rest
      (c :: p.1, p.2)

/-- `s.split(sep)`: Python semantics, so the empty string yields `[""]` and
separators at the ends yield empty fields. -/
def pySplit (sep : Char) : List Char → List (List Char)
  | [] => [[]]
  | c :: rest =>
    if c = sep then [] :: pySplit sep rest
    else
      match pySplit sep rest with
      | [] => [[c]]
      | g :: gs => (c :: g) :: gs

/-- `sep.join(parts)` for a one-character separator. -/
def joinSep (sep : Char) : List (List Char) → List Char
  | [] => []
  | [p] => p
  | p :: q :: rest => p ++ sep :: joinSep sep (q :: rest)

/-! ### src/unsubscribe_processor.py -/

/-- The scheme denylist of `is_valid_unsubscribe_url`. -/
def suspicious_patterns : List (List Char) :=
  ["javascript:".data, "data:".data, "file:".data, "ftp:".data]

def unsubscribe_pat : List Char := "unsubscribe".data

/-- `UnsubscribeProcessor.is_valid_unsubscribe_url`. -/
def is_valid_unsubscribe_url (url : List Char) : Bool :=
  if url.length < 10 then false
  else if !(lowerStarts "http://".data url || lowerStarts "https://".data url) then false
  else if !(lowerSubstr unsubscribe_pat url) then false
  else if suspicious_patterns.any (fun p => lowerSubstr p url) then false
  else true

/-- The character class `[^\s<>"]` of the unsubscribe regex. -/
def urlChar (c : Char) : Bool :=
  !(pyIsSpace c) && c ≠ '<' && c ≠ '>' && c ≠ '"'

/-- Consume the characters of `s` matched case-insensitively by the lowercase
pattern `p`, returning the consumed original characters and the remainder. -/
def stripLowerCI : List Char → List Char → Option (List Char × List Char)
  | [], s => some ([], s)
  | _ :: _, [] => none
  | pc :: ps, c :: cs =>
    if c.toLower = pc then
      match stripLowerCI ps cs with
      | some (m, r) => some (c :: m, r)
      | none => none
    else none

/-- The scheme part `https?://` of the unsubscribe regex (case-insensitive;
the optional `s` backtracks when `://` does not follow it). -/
def matchScheme (s : List Char) : Option (List Char × List Char) :=
  match stripLowerCI "http".data s with
  | none => none
  | some (m1, r1) =>
    match stripLowerCI "s://".data r1 with
    | some (m2, r2) => some (m1 ++ m2, r2)
    | none =>
      match stripLowerCI "://".data r1 with
      | some (m2, r2) => some (m1 ++ m2, r2)
      | none => none

/-- One attempt of the regex `https?://[^\s<>"]+unsubscribe[^\s<>"]*` at the
head of `s`.  The two greedy character classes make a successful match extend
exactly to the end of the maximal run of URL characters after the scheme, and
backtracking makes the attempt succeed iff `unsubscribe` occurs in that run at
offset at least 1 (the `+` needs one character before it).  `unsubscribe`
cannot straddle the scheme boundary since no nonempty suffix of `http://` or
`https://` is a prefix of `unsubscribe`. -/
def matchAt (s : List Char) : Option (List Char × List Char) :=
  match matchScheme s with
  | none => none
  | some (sch, r) =>
    let run := r.takeWhile urlChar
    if lowerSubstr unsubscribe_pat (run.drop 1) then
      some (sch ++ run, r.dropWhile urlChar)
    else none

/-- `re.findall` of the unsubscribe regex: scan left to right, take each
leftmost non-overlapping match and continue after it.  The fuel is the length
of the text; every step consumes at least one character (a match consumes the
whole scheme, at least 7 characters), so this fuel is always sufficient. -/
def findallAux : Nat → List Char → List (List Char)
  | 0, _ => []
  | _, [] => []
  | fuel + 1, c :: rest =>
    match matchAt (c :: rest) with
    | some (m, r) => m :: findallAux fuel r
    | none => findallAux fuel rest

def findallUnsub (s : List Char) : List (List Char) := findallAux s.length s

/-- `match.rstrip('.,;!?)')` applied to each regex match. -/
def rstrip_punct (s : List Char) : List Char :=
  (s.reverse.dropWhile (fun c => c ∈ ['.', ',', ';', '!', '?', ')'])).reverse

/-- The dedup-and-validate loop of `extract_unsubscribe_links` (`seen` is the
Python set, modelled as the list of links already kept). -/
def dedup_valid : List (List Char) → List (List Char) → List (List Char)
  | [], _ => []
  | m :: ms, seen =>
    let cleaned := rstrip_punct m
    if is_valid_unsubscribe_url cleaned && ¬ cleaned ∈ seen then
      cleaned :: dedup_valid ms (cleaned :: seen)
    else dedup_valid ms seen

/-- `UnsubscribeProcessor.extract_unsubscribe_links`. -/
def extract_unsubscribe_links (content : List Char) : List (List Char) :=
  if content = [] then []
  else dedup_valid (findallUnsub content) []

/-- The tracking-parameter denylist of `validate_and_clean_links`. -/
def tracking_params : List (List Char) :=
  ["utm_source".data, "utm_medium".data, "utm_campaign".data,
   "utm_content".data, "utm_term".data]

/-- `param.split('=')[0]`: the parameter name before the first `=`. -/
def param_name (p : List Char) : List Char := p.takeWhile (fun c => c ≠ '=')

/-- The per-parameter filter inside `validate_and_clean_links`: a parameter is
kept iff it contains `=` and its name is not on the tracking denylist. -/
def keep_param (p : List Char) : Bool :=
  ('=' ∈ p) && ¬ param_name p ∈ tracking_params

/-- The per-link cleaning step inside `validate_and_clean_links`. -/
def clean_link (link : List Char) : List Char :=
  let cl := pyStrip link
  if '?' ∈ cl then
    let base := (pySplitOnce '?' cl).1
    let params := (pySplitOnce '?' cl).2
    let filtered := (pySplit '&' params).filter keep_param
    if filtered ≠ [] then base ++ '?' :: joinSep '&' filtered
    else base
  else cl

/-- `UnsubscribeProcessor.validate_and_clean_links`. -/
def validate_and_clean_links (links : List (List Char)) : List (List Char) :=
  links.foldl
    (fun acc l => if is_valid_unsubscribe_url l then acc ++ [clean_link l] else acc) []

/-- Modelled from the spec, for comparison with `clean_link`: remove exactly
the query parameters whose name is on the tracking denylist, preserve every
other parameter and their order, drop the `?` when nothing remains. -/
def spec_clean_link (link : List Char) : List Char :=
  if '?' ∈ link then
    let base := (pySplitOnce '?' link).1
    let params := (pySplitOnce '?' link).2
    let filtered := (pySplit '&' params).filter (fun p => ¬ param_name p ∈ tracking_params)
    if filtered ≠ [] then base ++ '?' :: joinSep '&' filtered
    else base
  else link

/-- "No URL in the content contains the substring `unsubscribe`": at every
position of the text, if a URL scheme matches there then the URL token
starting there (the scheme plus the maximal run of URL characters) does not
contain `unsubscribe`, case-insensitively. -/
def noUnsubUrl : List Char → Bool
  | [] => true
  | c :: rest =>
    (match matchScheme (c :: rest) with
     | some (_, r) => !(lowerSubstr unsubscribe_pat (r.takeWhile urlChar))
     | none => true) && noUnsubUrl rest

/-! ### The IMAP server model

A `Server` is what one run of the engine can observe of the mail account:
which mailbox names a SELECT succeeds on, which message ids the BEFORE-cutoff
search returns in each mailbox (the fixed cutoff date of the run is folded
into `oldMail`), and the replies to STORE and EXPUNGE commands.  `Ev` is the
trace alphabet of server-mutating commands. -/

structure Server where
  folders : List String
  oldMail : String → List String
  storeOk : String → List String → Bool
  expungeOk : Bool

inductive Ev where
  | select (mailbox : String)
  | search (mailbox : String)
  | store (mailbox : String) (ids : List String)
  | storeLabels (mailbox : String) (ids : List String)
  | expunge (mailbox : String)
  deriving DecidableEq, Repr

abbrev Trace := List Ev

/-- The ids marked for deletion in `mailbox` over a whole trace: the
concatenation of the id lists of the STORE `\Deleted` commands issued while
`mailbox` was the selected mailbox. -/
def markedIn (tr : Trace) (mailbox : String) : List String :=
  (tr.filterMap (fun e =>
    match e with
    | Ev.store m ids => if m = mailbox then some ids else none
    | _ => none)).flatten

/-- The mailboxes expunged over a trace, in order. -/
def expungesOf (tr : Trace) : List String :=
  tr.filterMap (fun e => match e with | Ev.expunge m => some m | _ => none)

/-! ### src/imap_connection.py -/

/-- Case-sensitive prefix test on characters. -/
def listStarts : List Char → List Char → Bool
  | [], _ => true
  | _ :: _, [] => false
  | a :: as, b :: bs => a = b && listStarts as bs

/-- Case-sensitive `s.startswith(p)` on the underlying characters. -/
def strStarts (p s : String) : Bool := listStarts p.data s.data

/-- The fallback table of `GmailIMAPConnection.select_folder`. -/
def folder_variations (name : String) : List String :=
  if name = "[Gmail]/All Mail" then
    ["[Google Mail]/All Mail", "\"[Gmail]/All Mail\"", "All Mail"]
  else if name = "[Gmail]/Trash" then
    ["[Google Mail]/Bin", "[Gmail]/Bin", "\"[Gmail]/Trash\"", "Trash"]
  else if name = "[Gmail]/Spam" then
    ["[Google Mail]/Spam", "\"[Gmail]/Spam\"", "Spam"]
  else if name = "[Gmail]/Sent Mail" then
    ["[Google Mail]/Sent Mail", "\"[Gmail]/Sent Mail\"", "Sent"]
  else if name = "[Gmail]/Drafts" then
    ["[Google Mail]/Drafts", "\"[Gmail]/Drafts\"", "Drafts"]
  else []

/-- `GmailIMAPConnection.select_folder`: try the exact name, then the fixed
variation table in order; the result is the mailbox actually selected (`none`
when the name and every variation fail). -/
def select_folder (srv : Server) (name : String) : Option String :=
  if name ∈ srv.folders then some name
  else (folder_variations name).find? (fun v => decide (v ∈ srv.folders))

/-- Lexicographic order on code points (Python string `<`). -/
def strLt : List Char → List Char → Bool
  | [], [] => false
  | [], _ :: _ => true
  | _ :: _, [] => false
  | a :: as, b :: bs => a < b || (a = b && strLt as bs)

/-- The sort key of `list_folders`: INBOX first, provider folders second,
everything else third. -/
def folderGroup (f : String) : Nat :=
  if f = "INBOX" then 0
  else if strStarts "[Gmail]" f || strStarts "[Google Mail]" f then 1
  else 2

def folderLe (a b : String) : Bool :=
  folderGroup a < folderGroup b ||
    (folderGroup a = folderGroup b && !(strLt b.data a.data))

/-- Stable insertion used to model Python's stable `list.sort(key=...)`. -/
def insSorted (x : String) : List String → List String
  | [] => [x]
  | y :: ys => if folderLe y x then y :: insSorted x ys else x :: y :: ys

/-- `GmailIMAPConnection.list_folders`: the parsed mailbox names, sorted
stably with INBOX first, provider folders next, the rest last. -/
def list_folders (srv : Server) : List String :=
  srv.folders.foldl (fun acc f => insSorted f acc) []

/-! ### src/email_operations.py -/

/-- `EmailOperations.is_gmail_all_mail_folder`. -/
def gmail_all_mail_variations : List String :=
  ["[Gmail]/All Mail", "[Google Mail]/All Mail", "\"[Gmail]/All Mail\"",
   "\"[Google Mail]/All Mail\"", "All Mail"]

def is_gmail_all_mail_folder (folder_name : String) : Bool :=
  decide (folder_name ∈ gmail_all_mail_variations)

/-- `EmailOperations.search_old_emails`: select the folder (with fallbacks)
and run the BEFORE-cutoff search there; a failed selection is logged and
yields no results.  The search result is read in the mailbox actually
selected. -/
def search_old_emails (srv : Server) (folder : String) : Trace × List String :=
  match select_folder srv folder with
  | none => ([], [])
  | some g => ([Ev.select g, Ev.search g], srv.oldMail g)

/-- `EmailOperations.search_old_emails_multiple_folders`: per-folder search,
each id paired with the folder name it was requested under. -/
def search_old_emails_multiple_folders (srv : Server) (folders : List String) :
    Trace × List (String × String) :=
  ((folders.map (fun f => (search_old_emails srv f).1)).flatten,
   (folders.map (fun f => ((search_old_emails srv f).2).map (fun i => (i, f)))).flatten)

/-- `EmailOperations.delete_emails_bulk`: one STORE `+FLAGS \Deleted` round
trip for the whole id list; the full count on an OK reply, 0 on a missing
connection, an empty list, a non-OK reply or an exception. -/
def delete_emails_bulk (conn : Bool) (srv : Server) (mailbox : String)
    (ids : List String) : Trace × Nat :=
  if !conn then ([], 0)
  else if ids = [] then ([], 0)
  else ([Ev.store mailbox ids], if srv.storeOk mailbox ids then ids.length else 0)

/-- `EmailOperations.handle_gmail_all_mail_deletion`: STORE `\Deleted` on the
ids, then remove the `\All` Gmail label (a failed or unsupported label store
only changes the logging), then EXPUNGE; the count comes back only when the
expunge reply is OK. -/
def handle_gmail_all_mail_deletion (srv : Server) (mailbox : String)
    (ids : List String) : Trace × Nat :=
  if ids = [] then ([], 0)
  else if !(srv.storeOk mailbox ids) then ([Ev.store mailbox ids], 0)
  else ([Ev.store mailbox ids, Ev.storeLabels mailbox ids, Ev.expunge mailbox],
        if srv.expungeOk then ids.length else 0)

/-- The Gmail system folders that `get_gmail_source_folders` whitelists. -/
def gmail_source_patterns : List String :=
  ["[Gmail]/Sent Mail", "[Google Mail]/Sent Mail", "[Gmail]/Drafts",
   "[Google Mail]/Drafts", "[Gmail]/Spam", "[Google Mail]/Spam"]

/-- The custom-label test of `get_gmail_source_folders`: outside the
`[Gmail]` and `[Google Mail]` namespaces and not INBOX. -/
def custom_folder_cond (f : String) : Bool :=
  !(strStarts "[Gmail]" f) && !(strStarts "[Google Mail]" f) && f ≠ "INBOX"

/-- One step of the custom-label loop of `get_gmail_source_folders`. -/
def source_step (acc : List String) (f : String) : List String :=
  if custom_folder_cond f && ¬ f ∈ acc then acc ++ [f] else acc

/-- `EmailOperations.get_gmail_source_folders` as a function of the folder
listing: INBOX when present, then the whitelisted Gmail folders present, then
every listed folder outside the `[Gmail]`/`[Google Mail]` namespaces that is
not INBOX and not already taken (deduplicated in listing order). -/
def get_gmail_source_folders (all_folders : List String) : List String :=
  all_folders.foldl source_step
    ((if "INBOX" ∈ all_folders then ["INBOX"] else []) ++
      gmail_source_patterns.filter (fun p => decide (p ∈ all_folders)))

/-- One step of the grouping dict (`folder_groups`) of the deletion loops. -/
def group_step (groups : List (String × List String)) (p : String × String) :
    List (String × List String) :=
  if groups.any (fun g => g.1 = p.2) then
    groups.map (fun g => if g.1 = p.2 then (g.1, g.2 ++ [p.1]) else g)
  else groups ++ [(p.2, [p.1])]

/-- Grouping of (id, folder) pairs by folder in first-appearance order
(the Python dict used in the deletion loops). -/
def group_by_folder (pairs : List (String × String)) : List (String × List String) :=
  pairs.foldl group_step []

/-- `ids[i:i+batch_size]` chunking of the batch loop.  The fuel is the length
of the list; each step drops `n ≥ 1` elements, so it is always sufficient. -/
def chunksAux (n : Nat) : Nat → List String → List (List String)
  | 0, _ => []
  | _, [] => []
  | fuel + 1, l@(_ :: _) => if n = 0 then [] else l.take n :: chunksAux n fuel (l.drop n)

def chunks (n : Nat) (l : List String) : List (List String) := chunksAux n l.length l

/-- Per-source-folder body of `delete_old_emails_true_gmail`: select (skip on
failure), bulk-delete, expunge when anything was marked. -/
def process_source_folder (srv : Server) (grp : String × List String) : Trace × Nat :=
  match select_folder srv grp.1 with
  | none => ([], 0)
  | some g =>
    let r := delete_emails_bulk true srv g grp.2
    (Ev.select g :: r.1 ++ (if 0 < r.2 then [Ev.expunge g] else []), r.2)

/-- `EmailOperations.delete_old_emails_true_gmail`: enumerate the source
folders, search them all, then delete and expunge folder by folder. -/
def delete_old_emails_true_gmail (srv : Server) : Trace × Nat :=
  let sources := get_gmail_source_folders (list_folders srv)
  let sr := search_old_emails_multiple_folders srv sources
  if sr.2 = [] then (sr.1, 0)
  else
    let groups := group_by_folder sr.2
    (sr.1 ++ (groups.map (fun grp => (process_source_folder srv grp).1)).flatten,
     (groups.map (fun grp => (process_source_folder srv grp).2)).sum)

/-- The shared search phase of both deletion entry points: single-folder runs
search `folders[0]` directly, others go through the multi-folder search. -/
def search_phase (srv : Server) (folders : List String) :
    Trace × List (String × String) :=
  match folders with
  | [f] =>
    let r := search_old_emails srv f
    (r.1, r.2.map (fun i => (i, f)))
  | _ => search_old_emails_multiple_folders srv folders

/-- Per-folder body of `delete_old_emails_with_logging`: select (skip on
failure); an All Mail group auto-switches to true Gmail deletion, any other
group is deleted in batches of `batchSize` and expunged once when anything
was marked.  The metadata previews issue only FETCH commands and are not part
of the mutating trace. -/
def process_folder_logging (srv : Server) (batchSize : Nat)
    (grp : String × List String) : Trace × Nat :=
  match select_folder srv grp.1 with
  | none => ([], 0)
  | some g =>
    if is_gmail_all_mail_folder grp.1 then
      let r := delete_old_emails_true_gmail srv
      (Ev.select g :: r.1, r.2)
    else
      let bs := chunks batchSize grp.2
      let cnt := (bs.map (fun b => (delete_emails_bulk true srv g b).2)).sum
      (Ev.select g :: (bs.map (fun b => (delete_emails_bulk true srv g b).1)).flatten
         ++ (if 0 < cnt then [Ev.expunge g] else []), cnt)

/-- `EmailOperations.delete_old_emails_with_logging`. -/
def delete_old_emails_with_logging (srv : Server) (folders : List String)
    (batchSize : Nat) : Trace × Nat :=
  let sr := search_phase srv folders
  if sr.2 = [] then (sr.1, 0)
  else
    let groups := group_by_folder sr.2
    (sr.1 ++ (groups.map (fun grp => (process_folder_logging srv batchSize grp).1)).flatten,
     (groups.map (fun grp => (process_folder_logging srv batchSize grp).2)).sum)

/-- Per-folder body of `delete_old_emails_fast`: select (skip on failure); an
All Mail group that survives the early redirect goes through
`handle_gmail_all_mail_deletion`, any other group is bulk-deleted in one
command and expunged when anything was marked. -/
def process_folder_fast (srv : Server) (grp : String × List String) : Trace × Nat :=
  match select_folder srv grp.1 with
  | none => ([], 0)
  | some g =>
    if is_gmail_all_mail_folder grp.1 then
      let r := handle_gmail_all_mail_deletion srv g grp.2
      (Ev.select g :: r.1, r.2)
    else
      let r := delete_emails_bulk true srv g grp.2
      (Ev.select g :: r.1 ++ (if 0 < r.2 then [Ev.expunge g] else []), r.2)

/-- The early redirect test of `delete_old_emails_fast`:
`len(folders) == 1 and is_gmail_all_mail_folder(folders[0])`. -/
def fast_all_mail_guard : List String → Bool
  | [f] => is_gmail_all_mail_folder f
  | _ => false

/-- `EmailOperations.delete_old_emails_fast`: a run whose folder set is the
single All Mail folder is redirected whole to true Gmail deletion before any
search; otherwise search, group and process each folder. -/
def delete_old_emails_fast (srv : Server) (folders : List String) : Trace × Nat :=
  if fast_all_mail_guard folders then
    delete_old_emails_true_gmail srv
  else
    let sr := search_phase srv folders
    if sr.2 = [] then (sr.1, 0)
    else
      let groups := group_by_folder sr.2
      (sr.1 ++ (groups.map (fun grp => (process_folder_fast srv grp).1)).flatten,
       (groups.map (fun grp => (process_folder_fast srv grp).2)).sum)

/-! ### Metadata extraction (src/email_operations.py) -/

/-- The decoded headers of one fetched message (`msg.get(...)` view). -/
structure Header where
  subject : Option (List Char)
  sender : Option (List Char)
  date : Option (List Char)

structure EmailMeta where
  id : List Char
  subject : List Char
  sender : List Char
  date : Option Int
  date_str : List Char
  deriving DecidableEq

/-- `EmailOperations.parse_email_date`; `parsedate` is an oracle for the
stdlib chain `parsedate_tz` / `mktime_tz` / `datetime.fromtimestamp`,
returning `none` when the header is unparseable or the conversion raises. -/
def parse_email_date (parsedate : List Char → Option Int)
    (date_string : List Char) : Option Int :=
  if date_string = [] then none
  else parsedate date_string

/-- The decoded subject of `get_email_metadata`: default "No Subject" when
the header is missing; a nonempty raw subject goes through the
`decode_header` machinery, modelled by the oracle `decodeHdr`. -/
def decoded_subject (decodeHdr : List Char → List Char) (hdr : Header) : List Char :=
  let raw := hdr.subject.getD "No Subject".data
  if raw = [] then raw else decodeHdr raw

/-- `EmailOperations.get_email_metadata` on one fetched message: `none` when
there is no connection or the fetch reply is not OK, otherwise the metadata
record with the subject truncated at 100 characters. -/
def get_email_metadata (parsedate : List Char → Option Int)
    (decodeHdr : List Char → List Char) (conn : Bool) (fetchOk : Bool)
    (hdr : Header) (id : List Char) : Option EmailMeta :=
  if !conn then none
  else if !fetchOk then none
  else
    let subject := decoded_subject decodeHdr hdr
    let dateStr := hdr.date.getD []
    some { id := id
           subject := if 100 < subject.length then subject.take 100 ++ "...".data
                      else subject
           sender := hdr.sender.getD "Unknown Sender".data
           date := parse_email_date parsedate dateStr
           date_str := dateStr }

/-! ### Concrete servers used in the closed theorems -/

/-- A server whose listing carries a label literally named `All Mail` next to
INBOX, with one old message (id 3) under that label. -/
def bugSrv : Server :=
  { folders := ["INBOX", "All Mail"]
    oldMail := fun f => if f = "All Mail" then ["3"] else []
    storeOk := fun _ _ => true
    expungeOk := true }

/-- A Gmail-shaped server: INBOX holds old message 1, the All Mail view holds
old message 7; every STORE and EXPUNGE succeeds. -/
def gmailSrv : Server :=
  { folders := ["INBOX", "[Gmail]/All Mail"]
    oldMail := fun f => if f = "INBOX" then ["1"]
               else if f = "[Gmail]/All Mail" then ["7"] else []
    storeOk := fun _ _ => true
    expungeOk := true }

/-- A server whose STORE commands always succeed. -/
def okSrv : Server :=
  { folders := ["INBOX", "Trash"]
    oldMail := fun _ => []
    storeOk := fun _ _ => true
    expungeOk := true }

/-- A server whose STORE commands always come back non-OK. -/
def failSrv : Server :=
  { folders := ["INBOX"]
    oldMail := fun _ => []
    storeOk := fun _ _ => false
    expungeOk := true }

/-- A fetched header with a 101-character subject and an unparseable date. -/
def hdrW : Header :=
  { subject := some (List.replicate 101 'a')
    sender := none
    date := some "bogus".data }

/-- The source-folder list as the specification words it: the primary inbox
plus the non-system labels present on the server, excluding the virtual All
Mail folder and the other system views. -/
def spec_source_folders (all_folders : List String) : List String :=
  (if "INBOX" ∈ all_folders then ["INBOX"] else []) ++
    all_folders.filter (fun f =>
      !(strStarts "[Gmail]" f) && !(strStarts "[Google Mail]" f) &&
        f ≠ "INBOX" && !(is_gmail_all_mail_folder f))

/-! ### General lemmas about the string helpers -/

theorem lowerStarts_iff (p : List Char) :
    ∀ s, lowerStarts p s = true ↔ ∃ t, lowers s = p ++ t := by
  induction p with
  | nil => intro s; simp [lowerStarts, lowers]
  | cons pc ps ih =>
    intro s
    cases s with
    | nil => simp [lowerStarts, lowers]
    | cons c cs =>
      simp only [lowerStarts, Bool.and_eq_true, decide_eq_true_eq, ih, lowers,
        List.map_cons, List.cons_append, List.cons.injEq]
      constructor
      · rintro ⟨h1, t, h2⟩; exact ⟨t, h1, h2⟩
      · rintro ⟨t, h1, h2⟩; exact ⟨h1, t, h2⟩

theorem lowerSubstr_iff (p : List Char) :
    ∀ s, lowerSubstr p s = true ↔ ∃ a b, lowers s = a ++ (p ++ b) := by
  intro s
  induction s with
  | nil =>
    simp only [lowerSubstr, lowerStarts_iff, lowers, List.map_nil]
    constructor
    · rintro ⟨t, ht⟩; exact ⟨[], t, by simpa using ht⟩
    · rintro ⟨a, b, h⟩
      rcases List.append_eq_nil.mp h.symm with ⟨ha, hpb⟩
      exact ⟨b, by simp [ha, hpb]⟩
  | cons c cs ih =>
    simp only [lowerSubstr, Bool.or_eq_true, lowerStarts_iff, ih, lowers, List.map_cons]
    constructor
    · rintro (⟨t, ht⟩ | ⟨a, b, h⟩)
      · exact ⟨[], t, by simpa using ht⟩
      · exact ⟨c.toLower :: a, b, by simp [h]⟩
    · rintro ⟨a, b, h⟩
      cases a with
      | nil => exact Or.inl ⟨b, by simpa using h⟩
      | cons x xs =>
        right
        simp only [List.cons_append, List.cons.injEq] at h
        exact ⟨xs, b, h.2⟩

theorem lowerSubstr_drop_one (p l : List Char) (h : lowerSubstr p l = false) :
    lowerSubstr p (l.drop 1) = false := by
  cases l with
  | nil => simpa using h
  | cons c cs =>
    simp only [lowerSubstr, Bool.or_eq_false_iff] at h
    simpa using h.2

theorem dropWhile_of_all_false {p : Char → Bool} :
    ∀ s : List Char, (∀ c ∈ s, p c = false) → s.dropWhile p = s := by
  intro s h
  cases s with
  | nil => rfl
  | cons c cs => simp [List.dropWhile, h c (by simp)]

theorem pyStrip_id (s : List Char) (h : ∀ c ∈ s, pyIsSpace c = false) :
    pyStrip s = s := by
  unfold pyStrip
  rw [dropWhile_of_all_false s h, dropWhile_of_all_false s.reverse
    (fun c hc => h c (List.mem_reverse.mp hc)), List.reverse_reverse]

theorem pySplitOnce_append (sep : Char) :
    ∀ (base rest : List Char), sep ∉ base →
      pySplitOnce sep (base ++ sep :: rest) = (base, rest) := by
  intro base
  induction base with
  | nil => intro rest _; simp [pySplitOnce]
  | cons c cs ih =>
    intro rest h
    have hc : c ≠ sep := fun hh => h (by simp [hh])
    simp only [List.cons_append, pySplitOnce, if_neg hc, List.append_eq,
      ih rest (fun hh => h (by simp [hh]))]

theorem pySplit_no_sep (sep : Char) :
    ∀ p : List Char, sep ∉ p → pySplit sep p = [p] := by
  intro p
  induction p with
  | nil => intro _; rfl
  | cons c cs ih =>
    intro h
    have hc : c ≠ sep := fun hh => h (by simp [hh])
    simp only [pySplit, if_neg hc, ih (fun hh => h (by simp [hh]))]

theorem pySplit_append (sep : Char) :
    ∀ (p t : List Char), sep ∉ p →
      pySplit sep (p ++ sep :: t) = p :: pySplit sep t := by
  intro p
  induction p with
  | nil => intro t _; simp [pySplit]
  | cons c cs ih =>
    intro t h
    have hc : c ≠ sep := fun hh => h (by simp [hh])
    have hrec := ih t (fun hh => h (by simp [hh]))
    simp only [List.cons_append, pySplit, if_neg hc, List.append_eq, hrec]

theorem pySplit_joinSep (sep : Char) :
    ∀ ps : List (List Char), ps ≠ [] → (∀ p ∈ ps, sep ∉ p) →
      pySplit sep (joinSep sep ps) = ps := by
  intro ps
  induction ps with
  | nil => intro h; exact absurd rfl h
  | cons p qs ih =>
    intro _ h
    cases qs with
    | nil => simpa [joinSep] using pySplit_no_sep sep p (h p (by simp))
    | cons q rest =>
      have hrec := ih (by simp) (fun x hx => h x (List.mem_cons_of_mem _ hx))
      simp only [joinSep, pySplit_append sep p _ (h p (by simp)), hrec]

/-! ### Lemmas about the batch chunking -/

theorem chunksAux_flatten (n : Nat) (hn : 0 < n) :
    ∀ (fuel : Nat) (l : List String), l.length ≤ fuel →
      (chunksAux n fuel l).flatten = l := by
  intro fuel
  induction fuel with
  | zero =>
    intro l hl
    cases l with
    | nil => rfl
    | cons x xs => simp at hl
  | succ m ih =>
    intro l hl
    cases l with
    | nil => rfl
    | cons x xs =>
      have hn' : n ≠ 0 := Nat.pos_iff_ne_zero.mp hn
      simp only [chunksAux, if_neg hn', List.flatten_cons]
      have hlen : ((x :: xs).drop n).length ≤ m := by
        simp only [List.length_drop, List.length_cons]
        simp only [List.length_cons] at hl
        omega
      rw [ih ((x :: xs).drop n) hlen]
      exact List.take_append_drop n (x :: xs)

theorem chunks_flatten (n : Nat) (hn : 0 < n) (l : List String) :
    (chunks n l).flatten = l :=
  chunksAux_flatten n hn l.length l (Nat.le_refl _)

theorem chunksAux_ne_nil (n : Nat) :
    ∀ (fuel : Nat) (l : List String) (b : List String),
      b ∈ chunksAux n fuel l → b ≠ [] := by
  intro fuel
  induction fuel with
  | zero => intro l b h; simp [chunksAux] at h
  | succ m ih =>
    intro l b h
    cases l with
    | nil => simp [chunksAux] at h
    | cons x xs =>
      by_cases hn : n = 0
      · simp [chunksAux, hn] at h
      · simp only [chunksAux, if_neg hn, List.mem_cons] at h
        rcases h with h | h
        · subst h
          have : 0 < n := Nat.pos_of_ne_zero hn
          simp [List.take_eq_nil_iff]
          omega
        · exact ih _ _ h

theorem chunks_ne_nil (n : Nat) (l b : List String) (h : b ∈ chunks n l) : b ≠ [] :=
  chunksAux_ne_nil n l.length l b h

/-! ### Lemmas about the trace observations -/

theorem markedIn_append (t1 t2 : Trace) (m : String) :
    markedIn (t1 ++ t2) m = markedIn t1 m ++ markedIn t2 m := by
  simp [markedIn, List.filterMap_append]

theorem markedIn_select (g : String) (tr : Trace) (m : String) :
    markedIn (Ev.select g :: tr) m = markedIn tr m := by
  simp [markedIn, List.filterMap_cons]

theorem markedIn_search (g : String) (tr : Trace) (m : String) :
    markedIn (Ev.search g :: tr) m = markedIn tr m := by
  simp [markedIn, List.filterMap_cons]

theorem markedIn_storeLabels (g : String) (ids : List String) (tr : Trace) (m : String) :
    markedIn (Ev.storeLabels g ids :: tr) m = markedIn tr m := by
  simp [markedIn, List.filterMap_cons]

theorem markedIn_expunge (g : String) (tr : Trace) (m : String) :
    markedIn (Ev.expunge g :: tr) m = markedIn tr m := by
  simp [markedIn, List.filterMap_cons]

theorem markedIn_store (g : String) (ids : List String) (tr : Trace) (m : String) :
    markedIn (Ev.store g ids :: tr) m =
      (if g = m then ids else []) ++ markedIn tr m := by
  by_cases hgm : g = m <;> simp [markedIn, List.filterMap_cons, hgm]

theorem expungesOf_append (t1 t2 : Trace) :
    expungesOf (t1 ++ t2) = expungesOf t1 ++ expungesOf t2 := by
  simp [expungesOf, List.filterMap_append]

theorem expungesOf_select (g : String) (tr : Trace) :
    expungesOf (Ev.select g :: tr) = expungesOf tr := by
  simp [expungesOf, List.filterMap_cons]

theorem expungesOf_search (g : String) (tr : Trace) :
    expungesOf (Ev.search g :: tr) = expungesOf tr := by
  simp [expungesOf, List.filterMap_cons]

theorem expungesOf_store (g : String) (ids : List String) (tr : Trace) :
    expungesOf (Ev.store g ids :: tr) = expungesOf tr := by
  simp [expungesOf, List.filterMap_cons]

theorem expungesOf_storeLabels (g : String) (ids : List String) (tr : Trace) :
    expungesOf (Ev.storeLabels g ids :: tr) = expungesOf tr := by
  simp [expungesOf, List.filterMap_cons]

theorem expungesOf_expunge (g : String) (tr : Trace) :
    expungesOf (Ev.expunge g :: tr) = g :: expungesOf tr := by
  simp [expungesOf, List.filterMap_cons]

/-! ### Lemmas about grouping and the search phase -/

theorem group_step_keys (acc : List (String × List String)) (p : String × String)
    (grp : String × List String) (h : grp ∈ group_step acc p) :
    grp.1 ∈ acc.map Prod.fst ∨ grp.1 = p.2 := by
  unfold group_step at h
  split at h
  · rcases List.mem_map.mp h with ⟨g, hg, hupd⟩
    left
    have : grp.1 = g.1 := by
      subst hupd; split <;> simp
    rw [this]
    exact List.mem_map_of_mem Prod.fst hg
  · rcases List.mem_append.mp h with h1 | h1
    · exact Or.inl (List.mem_map_of_mem Prod.fst h1)
    · right
      simp only [List.mem_singleton] at h1
      rw [h1]

theorem group_foldl_keys :
    ∀ (l : List (String × String)) (acc : List (String × List String))
      (grp : String × List String), grp ∈ l.foldl group_step acc →
      grp.1 ∈ acc.map Prod.fst ∨ grp.1 ∈ l.map Prod.snd := by
  intro l
  induction l with
  | nil =>
    intro acc grp h
    exact Or.inl (List.mem_map_of_mem Prod.fst h)
  | cons p l ih =>
    intro acc grp h
    rcases ih (group_step acc p) grp h with h1 | h1
    · rcases List.mem_map.mp h1 with ⟨g, hg, hfst⟩
      rcases group_step_keys acc p g hg with h2 | h2
      · exact Or.inl (hfst ▸ h2)
      · right
        simp [← hfst, h2]
    · right
      simp [h1]

theorem group_by_folder_key_mem (pairs : List (String × String))
    (grp : String × List String) (h : grp ∈ group_by_folder pairs) :
    grp.1 ∈ pairs.map Prod.snd := by
  rcases group_foldl_keys pairs [] grp h with h1 | h1
  · simp at h1
  · exact h1

theorem search_phase_snd_mem (srv : Server) (folders : List String)
    (p : String × String) (h : p ∈ (search_phase srv folders).2) : p.2 ∈ folders := by
  match folders with
  | [f] =>
    simp only [search_phase] at h
    rcases List.mem_map.mp h with ⟨i, _, hp⟩
    simp [← hp]
  | [] =>
    simp [search_phase, search_old_emails_multiple_folders] at h
  | a :: b :: rest =>
    simp only [search_phase, search_old_emails_multiple_folders] at h
    rcases List.mem_flatten.mp h with ⟨L, hL, hpL⟩
    rcases List.mem_map.mp hL with ⟨f, hf, hLf⟩
    subst hLf
    rcases List.mem_map.mp hpL with ⟨i, _, hp⟩
    simpa [← hp] using hf

/-! ### Lemmas about the source-folder enumeration -/

theorem mem_source_foldl :
    ∀ (l acc : List String) (f : String),
      f ∈ l.foldl source_step acc ↔ f ∈ acc ∨ (f ∈ l ∧ custom_folder_cond f = true) := by
  intro l
  induction l with
  | nil => simp
  | cons x l ih =>
    intro acc f
    rw [List.foldl_cons, ih]
    unfold source_step
    by_cases hx : f = x
    · subst hx
      split
      · rename_i hcond
        simp only [Bool.and_eq_true, decide_eq_true_eq] at hcond
        simp [hcond.1]
      · rename_i hcond
        simp only [Bool.and_eq_true, decide_eq_true_eq, not_and, Bool.not_eq_true] at hcond
        by_cases hc : custom_folder_cond f = true
        · have hmem : f ∈ acc := by
            by_contra hn
            exact absurd (hcond hc) (by simpa using hn)
          simp [hmem]
        · simp [hc]
    · split
      · simp [List.mem_append, hx]
      · simp [hx]

/-- C3 (amended): the enumerated source-folder list consists of INBOX when
present, the whitelisted provider Sent Mail / Drafts / Spam folders present on
the server, and every listed folder outside the `[Gmail]` / `[Google Mail]`
namespaces other than INBOX — which keeps a plain label named `All Mail` and
drops nothing else. -/
theorem C3_source_folders_amended (all_folders : List String) (f : String) :
    f ∈ get_gmail_source_folders all_folders ↔
      (f = "INBOX" ∧ "INBOX" ∈ all_folders) ∨
      (f ∈ gmail_source_patterns ∧ f ∈ all_folders) ∨
      (f ∈ all_folders ∧ strStarts "[Gmail]" f = false ∧
        strStarts "[Google Mail]" f = false ∧ f ≠ "INBOX") := by
  unfold get_gmail_source_folders
  rw [mem_source_foldl]
  have hcond : custom_folder_cond f = true ↔
      (strStarts "[Gmail]" f = false ∧ strStarts "[Google Mail]" f = false ∧
        f ≠ "INBOX") := by
    simp [custom_folder_cond, Bool.and_eq_true, Bool.not_eq_true', decide_eq_true_eq,
      and_assoc]
  rw [List.mem_append, List.mem_filter]
  constructor
  · rintro ((h | h) | h)
    · split at h
      · simp only [List.mem_singleton] at h
        left; exact ⟨h, by assumption⟩
      · simp at h
    · exact Or.inr (Or.inl ⟨h.1, by simpa using h.2⟩)
    · exact Or.inr (Or.inr ⟨h.1, hcond.mp h.2⟩)
  · rintro (⟨h1, h2⟩ | ⟨h1, h2⟩ | ⟨h1, h2⟩)
    · left; left
      rw [if_pos h2]
      simp [h1]
    · left; right
      exact ⟨h1, by simpa using h2⟩
    · right
      exact ⟨h1, hcond.mpr h2⟩

/-! ### The regex scan finds nothing without `unsubscribe` in a URL -/

theorem findallAux_nil (fuel : Nat) :
    ∀ s : List Char, noUnsubUrl s = true → findallAux fuel s = [] := by
  induction fuel with
  | zero => intro s _; cases s <;> rfl
  | succ n ih =>
    intro s h
    cases s with
    | nil => rfl
    | cons c cs =>
      simp only [noUnsubUrl, Bool.and_eq_true] at h
      obtain ⟨h1, h2⟩ := h
      have hm : matchAt (c :: cs) = none := by
        unfold matchAt
        cases hms : matchScheme (c :: cs) with
        | none => rfl
        | some pr =>
          obtain ⟨sch, r⟩ := pr
          rw [hms] at h1
          simp only [Bool.not_eq_true'] at h1
          have hd := lowerSubstr_drop_one unsubscribe_pat (r.takeWhile urlChar) h1
          simp only [hd, Bool.false_eq_true, if_false]
      rw [findallAux, hm]
      exact ih cs h2

theorem extract_empty_of_noUnsubUrl (content : List Char)
    (h : noUnsubUrl content = true) : extract_unsubscribe_links content = [] := by
  unfold extract_unsubscribe_links
  split
  · rfl
  · rw [findallUnsub, findallAux_nil content.length content h]
    rfl

/-! ### Agreement of the logged and fast per-folder deletion -/

theorem markedIn_nil (m : String) : markedIn [] m = [] := rfl

theorem expungesOf_nil : expungesOf [] = [] := rfl

theorem bulk_fst (srv : Server) (g : String) (b : List String) :
    (delete_emails_bulk true srv g b).1 = if b = [] then [] else [Ev.store g b] := by
  unfold delete_emails_bulk
  split_ifs <;> simp_all

theorem bulk_snd_ok (srv : Server) (g : String) (b : List String)
    (h : srv.storeOk g b = true) :
    (delete_emails_bulk true srv g b).2 = b.length := by
  unfold delete_emails_bulk
  split_ifs <;> simp_all

theorem flatten_map_singleton {α β : Type} (f : α → β) (l : List α) :
    (l.map (fun b => [f b])).flatten = l.map f := by
  induction l <;> simp_all

theorem markedIn_map_store (g : String) (l : List (List String)) (m : String) :
    markedIn (l.map (fun b => Ev.store g b)) m = if g = m then l.flatten else [] := by
  induction l with
  | nil => simp [markedIn_nil]
  | cons b l ih =>
    simp only [List.map_cons, markedIn_store, ih, List.flatten_cons]
    by_cases hgm : g = m <;> simp [hgm]

theorem expungesOf_map_store (g : String) (l : List (List String)) :
    expungesOf (l.map (fun b => Ev.store g b)) = [] := by
  induction l with
  | nil => rfl
  | cons b l ih => simp only [List.map_cons, expungesOf_store, ih]

theorem process_folder_agree (srv : Server) (bs : Nat) (grp : String × List String)
    (hbs : 0 < bs) (hall : is_gmail_all_mail_folder grp.1 = false)
    (hstore : ∀ m ids, srv.storeOk m ids = true) :
    (process_folder_logging srv bs grp).2 = (process_folder_fast srv grp).2 ∧
    (∀ m, markedIn (process_folder_logging srv bs grp).1 m =
          markedIn (process_folder_fast srv grp).1 m) ∧
    expungesOf (process_folder_logging srv bs grp).1 =
      expungesOf (process_folder_fast srv grp).1 := by
  obtain ⟨f, ids⟩ := grp
  simp only at hall
  unfold process_folder_logging process_folder_fast
  cases hsel : select_folder srv f with
  | none => simp
  | some g =>
    simp only [hall, Bool.false_eq_true, if_false]
    cases hids : ids with
    | nil =>
      simp [chunks, chunksAux, delete_emails_bulk, markedIn_nil, markedIn_select,
        markedIn_append, expungesOf_nil, expungesOf_select, expungesOf_append]
    | cons i rest =>
      have hne : ids ≠ [] := by rw [hids]; simp
      rw [← hids]
      have hcnt :
          ((chunks bs ids).map (fun b => (delete_emails_bulk true srv g b).2)).sum =
            ids.length := by
        rw [List.map_congr_left
          (fun b _ => bulk_snd_ok srv g b (hstore g b))]
        rw [← List.length_flatten, chunks_flatten bs hbs]
      have htr :
          (chunks bs ids).map (fun b => (delete_emails_bulk true srv g b).1) =
            (chunks bs ids).map (fun b => [Ev.store g b]) := by
        apply List.map_congr_left
        intro b hb
        rw [bulk_fst, if_neg (chunks_ne_nil bs ids b hb)]
      have hfsnd : (delete_emails_bulk true srv g ids).2 = ids.length :=
        bulk_snd_ok srv g ids (hstore g ids)
      have hffst : (delete_emails_bulk true srv g ids).1 = [Ev.store g ids] := by
        rw [bulk_fst, if_neg hne]
      have hpos : 0 < ids.length := by rw [hids]; simp
      refine ⟨?_, fun m => ?_, ?_⟩
      · dsimp only
        rw [hcnt, hfsnd]
      · dsimp only
        simp [htr, flatten_map_singleton, hcnt, hffst, hfsnd, hpos,
          markedIn_select, markedIn_append, markedIn_map_store,
          chunks_flatten bs hbs, markedIn_store, markedIn_expunge, markedIn_nil]
      · dsimp only
        simp [htr, flatten_map_singleton, hcnt, hffst, hfsnd, hpos,
          expungesOf_select, expungesOf_append, expungesOf_map_store,
          expungesOf_store, expungesOf_expunge, expungesOf_nil]

theorem agree_over_groups (srv : Server) (bs : Nat) (hbs : 0 < bs)
    (hstore : ∀ m ids, srv.storeOk m ids = true) :
    ∀ groups : List (String × List String),
      (∀ grp ∈ groups, is_gmail_all_mail_folder grp.1 = false) →
      ((groups.map (fun grp => (process_folder_logging srv bs grp).2)).sum =
        (groups.map (fun grp => (process_folder_fast srv grp).2)).sum) ∧
      (∀ m,
        markedIn ((groups.map (fun grp => (process_folder_logging srv bs grp).1)).flatten) m =
        markedIn ((groups.map (fun grp => (process_folder_fast srv grp).1)).flatten) m) ∧
      expungesOf ((groups.map (fun grp => (process_folder_logging srv bs grp).1)).flatten) =
        expungesOf ((groups.map (fun grp => (process_folder_fast srv grp).1)).flatten) := by
  intro groups
  induction groups with
  | nil => intro _; simp [markedIn_nil, expungesOf_nil]
  | cons grp rest ih =>
    intro h
    have hg := process_folder_agree srv bs grp hbs (h grp (by simp)) hstore
    have hr := ih (fun x hx => h x (List.mem_cons_of_mem _ hx))
    refine ⟨?_, fun m => ?_, ?_⟩
    · simp only [List.map_cons, List.sum_cons, hg.1, hr.1]
    · simp only [List.map_cons, List.flatten_cons, markedIn_append, hg.2.1 m, hr.2.1 m]
    · simp only [List.map_cons, List.flatten_cons, expungesOf_append, hg.2.2, hr.2.2]

/-! ### The claims -/

/-- C1: a deletion run targeting only the virtual Gmail All Mail folder is
supposed to be redirected to the real source folders and never to issue a
STORE `\Deleted` while an All Mail folder is selected.  On a server whose
listing carries a label literally named `All Mail` — a name the code itself
classifies as the virtual All Mail folder — the redirected run re-enumerates
that label as a "source folder" and stores the deletion flag with it
selected, in both the fast and the logged path, contradicting the
documentation of `get_gmail_source_folders` ("not All Mail"). -/
theorem C1_store_issued_in_all_mail :
    is_gmail_all_mail_folder "All Mail" = true ∧
    get_gmail_source_folders (list_folders bugSrv) = ["INBOX", "All Mail"] ∧
    Ev.store "All Mail" ["3"] ∈ (delete_old_emails_fast bugSrv ["All Mail"]).1 ∧
    Ev.store "All Mail" ["3"] ∈
      (delete_old_emails_with_logging bugSrv ["All Mail"] 500).1 := by
  decide

/-- C2 (counterexample): with the folder set `[INBOX, [Gmail]/All Mail]` the
two paths have different deletion semantics — the logged path redirects the
All Mail group to true Gmail deletion and marks nothing in All Mail, while
the fast path stores the deletion flag on the All Mail messages with All Mail
selected. -/
theorem C2_counterexample :
    markedIn (delete_old_emails_with_logging gmailSrv
        ["INBOX", "[Gmail]/All Mail"] 500).1 "[Gmail]/All Mail" = [] ∧
    markedIn (delete_old_emails_fast gmailSrv
        ["INBOX", "[Gmail]/All Mail"]).1 "[Gmail]/All Mail" = ["7"] := by
  decide

/-- C2 (amended): when no folder in the target set is an All Mail folder and
every STORE reply is OK, fast deletion and logged deletion have the same
deletion semantics for every server, cutoff and batch size ≥ 1: the same
total count, the same ids marked in every mailbox, and the same expunges;
they differ only in batching, previews and logging. -/
theorem C2_fast_matches_logging (srv : Server) (folders : List String)
    (batchSize : Nat) (hbs : 0 < batchSize)
    (hall : ∀ f ∈ folders, is_gmail_all_mail_folder f = false)
    (hstore : ∀ m ids, srv.storeOk m ids = true) :
    (delete_old_emails_with_logging srv folders batchSize).2 =
      (delete_old_emails_fast srv folders).2 ∧
    (∀ m, markedIn (delete_old_emails_with_logging srv folders batchSize).1 m =
          markedIn (delete_old_emails_fast srv folders).1 m) ∧
    expungesOf (delete_old_emails_with_logging srv folders batchSize).1 =
      expungesOf (delete_old_emails_fast srv folders).1 := by
  have hguard : fast_all_mail_guard folders = false := by
    rcases folders with _ | ⟨f, _ | ⟨a, r⟩⟩
    · rfl
    · exact hall f (by simp)
    · rfl
  unfold delete_old_emails_with_logging delete_old_emails_fast
  rw [hguard]
  simp only [Bool.false_eq_true, if_false]
  by_cases hemp : (search_phase srv folders).2 = []
  · rw [if_pos hemp, if_pos hemp]
    exact ⟨rfl, fun m => rfl, rfl⟩
  · have hgroups : ∀ grp ∈ group_by_folder (search_phase srv folders).2,
        is_gmail_all_mail_folder grp.1 = false := by
      intro grp hgrp
      have h1 := group_by_folder_key_mem _ grp hgrp
      rcases List.mem_map.mp h1 with ⟨p, hp, hsnd⟩
      rw [← hsnd]
      exact hall p.2 (search_phase_snd_mem srv folders p hp)
    obtain ⟨hsum, hmk, hexp⟩ :=
      agree_over_groups srv batchSize hbs hstore _ hgroups
    rw [if_neg hemp, if_neg hemp]
    refine ⟨hsum, fun m => ?_, ?_⟩
    · rw [markedIn_append, markedIn_append, hmk m]
    · rw [expungesOf_append, expungesOf_append, hexp]

theorem C2_witness :
    (delete_old_emails_with_logging okSrv ["INBOX"] 2).2 =
      (delete_old_emails_fast okSrv ["INBOX"]).2 ∧
    markedIn (delete_old_emails_with_logging okSrv ["INBOX"] 2).1 "INBOX" =
      markedIn (delete_old_emails_fast okSrv ["INBOX"]).1 "INBOX" := by
  have h := C2_fast_matches_logging okSrv ["INBOX"] 2 (by decide) (by decide)
    (fun _ _ => rfl)
  exact ⟨h.1, h.2.1 "INBOX"⟩

/-- C3 (counterexample): the enumerated source-folder list is not "the
primary inbox plus the non-system labels": it includes the `[Gmail]/Sent
Mail` system view, and on a listing that carries a plain `All Mail` label it
includes a folder the code itself classifies as the virtual All Mail
folder. -/
theorem C3_counterexample :
    get_gmail_source_folders ["INBOX", "[Gmail]/Sent Mail"] ≠
      spec_source_folders ["INBOX", "[Gmail]/Sent Mail"] ∧
    "[Gmail]/Sent Mail" ∈ get_gmail_source_folders ["INBOX", "[Gmail]/Sent Mail"] ∧
    "All Mail" ∈ get_gmail_source_folders ["INBOX", "All Mail"] ∧
    is_gmail_all_mail_folder "All Mail" = true := by
  decide

/-- C4 (counterexample): link cleaning does not preserve every non-denylist
query parameter — a parameter with no `=` (here `flag`) is dropped even
though its name is not on the tracking denylist, so the cleaned link differs
from what the claim prescribes (`spec_clean_link` keeps it). -/
theorem C4_counterexample :
    validate_and_clean_links ["https://x.com/unsubscribe?flag&id=5".data] =
      ["https://x.com/unsubscribe?id=5".data] ∧
    spec_clean_link "https://x.com/unsubscribe?flag&id=5".data =
      "https://x.com/unsubscribe?flag&id=5".data ∧
    "https://x.com/unsubscribe?id=5".data ≠
      "https://x.com/unsubscribe?flag&id=5".data := by
  decide

/-- C4 (amended): on a well-formed valid unsubscribe URL `base?p1&...&pn`,
cleaning keeps exactly the parameters that contain `=` and whose name (the
part before the first `=`) is not on the tracking denylist, preserving their
relative order; when nothing is kept the trailing `?` is dropped. -/
theorem C4_clean_link_filters (base : List Char) (ps : List (List Char))
    (hne : ps ≠ [])
    (hqbase : '?' ∉ base)
    (hamp : ∀ p ∈ ps, '&' ∉ p)
    (hsp : ∀ c ∈ base ++ '?' :: joinSep '&' ps, pyIsSpace c = false)
    (hvalid : is_valid_unsubscribe_url (base ++ '?' :: joinSep '&' ps) = true) :
    validate_and_clean_links [base ++ '?' :: joinSep '&' ps] =
      [if ps.filter keep_param ≠ [] then
        base ++ '?' :: joinSep '&' (ps.filter keep_param)
       else base] := by
  unfold validate_and_clean_links
  rw [List.foldl_cons, List.foldl_nil, if_pos hvalid, List.nil_append]
  congr 1
  unfold clean_link
  dsimp only
  rw [pyStrip_id _ hsp]
  have hq : '?' ∈ base ++ '?' :: joinSep '&' ps :=
    List.mem_append_right _ (List.mem_cons_self _ _)
  rw [if_pos hq, pySplitOnce_append '?' base (joinSep '&' ps) hqbase]
  dsimp only
  rw [pySplit_joinSep '&' ps hne hamp]

theorem C4_witness :
    validate_and_clean_links ["https://x.com/unsubscribe".data ++ '?' ::
        joinSep '&' ["utm_source=a".data, "flag".data, "id=5".data]] =
      [if ["utm_source=a".data, "flag".data, "id=5".data].filter keep_param ≠ [] then
        "https://x.com/unsubscribe".data ++ '?' ::
          joinSep '&' (["utm_source=a".data, "flag".data, "id=5".data].filter keep_param)
       else "https://x.com/unsubscribe".data] :=
  C4_clean_link_filters "https://x.com/unsubscribe".data
    ["utm_source=a".data, "flag".data, "id=5".data]
    (by decide) (by decide) (by decide) (by decide) (by decide)

/-- C5: extraction followed by cleaning on the given content yields exactly
the tracking-stripped unsubscribe link, and on any content in which no URL
token contains the substring `unsubscribe` the extraction returns the empty
list. -/
theorem C5_extract_then_clean :
    validate_and_clean_links (extract_unsubscribe_links
        "Click here: https://x.com/unsubscribe?utm_source=a&id=5 to opt out.".data) =
      ["https://x.com/unsubscribe?id=5".data] ∧
    ∀ content : List Char, noUnsubUrl content = true →
      extract_unsubscribe_links content = [] :=
  ⟨by decide, fun content h => extract_empty_of_noUnsubUrl content h⟩

theorem C5_witness :
    noUnsubUrl "see http://a.com/x and mailto:unsubscribe".data = true ∧
    extract_unsubscribe_links "see http://a.com/x and mailto:unsubscribe".data = [] :=
  ⟨by decide, C5_extract_then_clean.2 _ (by decide)⟩

/-- C6 (counterexample): `delete_emails_bulk` never reports a partial count —
for a two-id request the single STORE round trip yields either the full count
2 (reply OK) or 0 (reply non-OK), never 1. -/
theorem C6_counterexample :
    (delete_emails_bulk true okSrv "INBOX" ["1", "2"]).2 = 2 ∧
    (delete_emails_bulk true failSrv "INBOX" ["1", "2"]).2 = 0 ∧
    (delete_emails_bulk true failSrv "INBOX" ["1", "2"]).1 =
      [Ev.store "INBOX" ["1", "2"]] := by
  decide

/-- C6 (amended): for every non-empty identifier list, `delete_emails_bulk`
marks the identifiers in a single STORE round trip and returns the full
requested count when the reply is OK and 0 otherwise; a strictly partial
count is never reported, and nothing is retried. -/
theorem C6_bulk_single_round_trip (srv : Server) (mailbox : String)
    (ids : List String) (hne : ids ≠ []) :
    (delete_emails_bulk true srv mailbox ids).1 = [Ev.store mailbox ids] ∧
    (delete_emails_bulk true srv mailbox ids).2 =
      (if srv.storeOk mailbox ids then ids.length else 0) := by
  unfold delete_emails_bulk
  simp [hne]

theorem C6_witness :
    (delete_emails_bulk true okSrv "INBOX" ["1"]).1 = [Ev.store "INBOX" ["1"]] ∧
    (delete_emails_bulk true okSrv "INBOX" ["1"]).2 =
      (if okSrv.storeOk "INBOX" ["1"] then (["1"] : List String).length else 0) :=
  C6_bulk_single_round_trip okSrv "INBOX" ["1"] (by decide)

/-- C7: for a folder name in the alternate-spelling table, `select_folder`
attempts the exact name first, then the table's alternates in their fixed
order, and succeeds exactly when the name or one of its alternates exists on
the server — in particular it succeeds through an alternate even when the
canonical name does not exist. -/
theorem C7_select_folder_fallback (srv : Server) (name : String)
    (_hkey : folder_variations name ≠ []) :
    (name ∈ srv.folders → select_folder srv name = some name) ∧
    (name ∉ srv.folders →
      select_folder srv name =
        (folder_variations name).find? (fun v => decide (v ∈ srv.folders))) ∧
    ((select_folder srv name).isSome = true ↔
      name ∈ srv.folders ∨ ∃ v ∈ folder_variations name, v ∈ srv.folders) := by
  refine ⟨fun h => ?_, fun h => ?_, ?_⟩
  · unfold select_folder
    rw [if_pos h]
  · unfold select_folder
    rw [if_neg h]
  · unfold select_folder
    split
    · simp_all
    · rw [List.find?_isSome]
      simp_all

theorem C7_witness :
    (select_folder okSrv "[Gmail]/Trash").isSome = true :=
  (C7_select_folder_fallback okSrv "[Gmail]/Trash" (by decide)).2.2.mpr
    (Or.inr ⟨"Trash", by decide, by decide⟩)

/-- C8: on a successfully fetched header, the metadata record always comes
back (never raises); its structured date is none exactly when the Date header
is missing/empty or the standard date parse fails; and whenever the decoded
subject exceeds 100 characters the returned subject is its first 100
characters followed by the `...` ellipsis marker (shorter subjects pass
through unchanged). -/
theorem C8_metadata_date_and_truncation (parsedate : List Char → Option Int)
    (decodeHdr : List Char → List Char) (hdr : Header) (id : List Char) :
    ∃ meta, get_email_metadata parsedate decodeHdr true true hdr id = some meta ∧
      (meta.date = none ↔
        hdr.date.getD [] = [] ∨ parsedate (hdr.date.getD []) = none) ∧
      (100 < (decoded_subject decodeHdr hdr).length →
        meta.subject = (decoded_subject decodeHdr hdr).take 100 ++ "...".data) ∧
      ((decoded_subject decodeHdr hdr).length ≤ 100 →
        meta.subject = decoded_subject decodeHdr hdr) := by
  unfold get_email_metadata
  simp only [Bool.not_true, Bool.false_eq_true, if_false]
  refine ⟨_, rfl, ?_, ?_, ?_⟩
  · by_cases hd : hdr.date.getD [] = [] <;>
      simp [parse_email_date, hd]
  · intro h
    simp [h]
  · intro h
    have hn : ¬ (100 < (decoded_subject decodeHdr hdr).length) := by omega
    simp [hn]

theorem C8_witness :
    ∃ meta, get_email_metadata (fun _ => none) (fun s => s) true true hdrW
        "1".data = some meta ∧
      meta.date = none ∧
      meta.subject = (List.replicate 101 'a').take 100 ++ "...".data := by
  obtain ⟨meta, hm, hdate, htrunc, _⟩ :=
    C8_metadata_date_and_truncation (fun _ => none) (fun s => s) hdrW "1".data
  refine ⟨meta, hm, hdate.mpr (Or.inr rfl), ?_⟩
  have hdec : decoded_subject (fun s => s) hdrW = List.replicate 101 'a' := by decide
  rw [htrunc (by rw [hdec]; decide), hdec]

/-- C9: `delete_emails_bulk` is all-or-nothing — on every input its result is
either the full length of the id list or 0, and a nonzero result always
equals the number of identifiers requested. -/
theorem C9_bulk_all_or_nothing (conn : Bool) (srv : Server) (mailbox : String)
    (ids : List String) :
    ((delete_emails_bulk conn srv mailbox ids).2 = ids.length ∨
      (delete_emails_bulk conn srv mailbox ids).2 = 0) ∧
    ((delete_emails_bulk conn srv mailbox ids).2 ≠ 0 →
      (delete_emails_bulk conn srv mailbox ids).2 = ids.length) := by
  unfold delete_emails_bulk
  split_ifs <;> simp_all

theorem C9_witness :
    (delete_emails_bulk true okSrv "INBOX" ["1", "2"]).2 =
      (["1", "2"] : List String).length :=
  (C9_bulk_all_or_nothing true okSrv "INBOX" ["1", "2"]).2 (by decide)

/-- C10: `is_valid_unsubscribe_url` accepts exactly the URLs of length at
least 10 that start (case-insensitively) with `http://` or `https://`,
contain `unsubscribe` (case-insensitively), and contain none of the
suspicious substrings `javascript:`, `data:`, `file:`, `ftp:` anywhere —
and rejects every other URL. -/
theorem C10_is_valid_characterization (url : List Char) :
    is_valid_unsubscribe_url url = true ↔
      (10 ≤ url.length ∧
       ((∃ t, lowers url = "http://".data ++ t) ∨
         (∃ t, lowers url = "https://".data ++ t)) ∧
       (∃ a b, lowers url = a ++ ("unsubscribe".data ++ b)) ∧
       (∀ p ∈ suspicious_patterns, ¬ ∃ a b, lowers url = a ++ (p ++ b))) := by
  unfold is_valid_unsubscribe_url
  split_ifs with h1 h2 h3 h4
  · simp only [Bool.false_eq_true, false_iff]
    rintro ⟨hlen, -⟩
    omega
  · simp only [Bool.false_eq_true, false_iff]
    rintro ⟨-, hsch, -⟩
    simp only [Bool.not_eq_true', Bool.or_eq_false_iff] at h2
    rcases hsch with ⟨t, ht⟩ | ⟨t, ht⟩
    · exact absurd ((lowerStarts_iff _ url).mpr ⟨t, ht⟩) (by simp [h2.1])
    · exact absurd ((lowerStarts_iff _ url).mpr ⟨t, ht⟩) (by simp [h2.2])
  · simp only [Bool.false_eq_true, false_iff]
    rintro ⟨-, -, hsub, -⟩
    simp only [Bool.not_eq_true'] at h3
    exact absurd ((lowerSubstr_iff unsubscribe_pat url).mpr hsub) (by simp [h3])
  · simp only [Bool.false_eq_true, false_iff]
    rintro ⟨-, -, -, hsus⟩
    rcases List.any_eq_true.mp h4 with ⟨p, hp, hpl⟩
    exact hsus p hp ((lowerSubstr_iff p url).mp hpl)
  · simp only [true_iff]
    refine ⟨by omega, ?_, ?_, ?_⟩
    · have h2' : (lowerStarts "http://".data url ||
          lowerStarts "https://".data url) = true := by
        revert h2
        cases lowerStarts "http://".data url <;>
          cases lowerStarts "https://".data url <;> simp
      rcases Bool.or_eq_true_iff.mp h2' with h | h
      · exact Or.inl ((lowerStarts_iff _ url).mp h)
      · exact Or.inr ((lowerStarts_iff _ url).mp h)
    · have h3' : lowerSubstr unsubscribe_pat url = true := by
        revert h3
        cases lowerSubstr unsubscribe_pat url <;> simp
      exact (lowerSubstr_iff _ url).mp h3'
    · intro p hp hex
      have : lowerSubstr p url = true := (lowerSubstr_iff p url).mpr hex
      exact h4 (List.any_eq_true.mpr ⟨p, hp, this⟩)

theorem C10_witness :
    10 ≤ ("https://a.com/unsubscribe".data).length :=
  ((C10_is_valid_characterization "https://a.com/unsubscribe".data).mp
    (by decide)).1

end ZeroMail
